import Mathlib

/-
Formal model of the video-summary pipeline (src/main.py, class VideoSummarizer).

The two core routines are embedded as pure functions over exact rationals:

* `extract_video_segments` models `VideoSummarizer.extract_video_segments`
  (the segment planner, src/main.py lines 46-86).  Python's numeric tower is
  modelled by `ℚ` for durations and `ℤ` for counts.  The two ways the Python
  code can raise on this path are modelled by an explicit error type:
  the `ValueError` for a zero duration, and the `ZeroDivisionError` raised by
  `max(1, self.total_duration / num_segments)` when `num_segments` is `0`
  (which happens when the reduction `int(total_duration // segment_duration)`
  yields `0`).

* `create_summary_video` models `VideoSummarizer.create_summary_video`
  (the composer, src/main.py lines 88-138) as an explicit outcome record:
  moviepy clip objects become numbered handles, and the backend steps that can
  fail (audio trim/attach, final encode) are driven by explicit failure flags.

* `splitext` / `generate_output_path` model the default output path logic of
  `VideoSummarizer.__init__` and `_generate_output_path` (lines 15-16, 36-44),
  including the semantics of CPython's `posixpath.splitext`.
-/

namespace VideoSummary

/-- A sampled time range: the pair of loop variables `start_time` / `end_time`
computed at src/main.py lines 71-72. -/
structure TimeRange where
  start_time : ℚ
  end_time : ℚ
deriving DecidableEq, Repr

/-- How `extract_video_segments` can fail before returning a list.
`invalidInput` is the `ValueError` raised when the duration is zero (line 58);
`zeroDivision` is Python's `ZeroDivisionError` raised while evaluating
`max(1, self.total_duration / num_segments)` at line 67 when `num_segments`
is zero. -/
inductive PlanError
  | invalidInput
  | zeroDivision
deriving DecidableEq, Repr

/-- The observable result of a successful planning run: the computed ranges,
whether the reduction warning of lines 62-65 was printed, and the (possibly
reduced) segment count used for the loop. -/
structure PlanResult where
  clips : List TimeRange
  planReduced : Bool
  effectiveCount : ℤ
deriving DecidableEq, Repr

/-- Lines 61-64: `num_segments` after the optional reduction
`num_segments = int(self.total_duration // segment_duration)`, which is taken
exactly when `total_duration < num_segments * segment_duration`.  Python's
float floor-division followed by `int(...)` is `Int.floor` on these values. -/
def effective_segments (total_duration : ℚ) (num_segments0 : ℤ)
    (segment_duration : ℚ) : ℤ :=
  if total_duration < (num_segments0 : ℚ) * segment_duration then
    ⌊total_duration / segment_duration⌋
  else num_segments0

/-- Line 67: `segment_interval = max(1, self.total_duration / num_segments)`. -/
def segment_interval (total_duration : ℚ) (num_segments : ℤ) : ℚ :=
  max 1 (total_duration / (num_segments : ℚ))

/-- Lines 70-72: the ranges computed by the extraction loop
(`start_time = i * segment_interval`,
`end_time = min(start_time + segment_duration, self.total_duration)`).
`range(n)` over a negative `n` is empty, matching `Int.toNat`. -/
def plan_clips (total_duration segment_duration : ℚ) (num_segments : ℤ) :
    List TimeRange :=
  (List.range num_segments.toNat).map (fun (i : ℕ) =>
    { start_time := (i : ℚ) * segment_interval total_duration num_segments,
      end_time :=
        min ((i : ℚ) * segment_interval total_duration num_segments + segment_duration)
          total_duration })

/-- `VideoSummarizer.extract_video_segments` (lines 46-86) as a pure function.
The backend (`subclipped`) is not modelled: the returned clips are the planned
ranges themselves, which is the plan the claims quantify over. -/
def extract_video_segments (total_duration : ℚ) (num_segments0 : ℤ)
    (segment_duration : ℚ) : Except PlanError PlanResult :=
  if total_duration = 0 then Except.error PlanError.invalidInput
  else if effective_segments total_duration num_segments0 segment_duration = 0 then
    Except.error PlanError.zeroDivision
  else
    Except.ok
      { clips := plan_clips total_duration segment_duration
          (effective_segments total_duration num_segments0 segment_duration),
        planReduced := decide (total_duration < (num_segments0 : ℚ) * segment_duration),
        effectiveCount := effective_segments total_duration num_segments0 segment_duration }

/-- Inversion: what a successful planning run must look like. -/
theorem extract_ok_inv {d s : ℚ} {c : ℤ} {r : PlanResult}
    (hr : extract_video_segments d c s = Except.ok r) :
    d ≠ 0 ∧ effective_segments d c s ≠ 0 ∧
      r = { clips := plan_clips d s (effective_segments d c s),
            planReduced := decide (d < (c : ℚ) * s),
            effectiveCount := effective_segments d c s } := by
  unfold extract_video_segments at hr
  split_ifs at hr with h1 h2
  exact ⟨h1, h2, (Except.ok.inj hr).symm⟩

/-- When the planner succeeds on positive inputs, the effective count is at
least one and `effectiveCount * segment_duration ≤ total_duration` (directly
in the unreduced branch, via the floor in the reduced branch). -/
theorem effective_segments_bound (d s : ℚ) (c : ℤ)
    (hd : 0 < d) (hc : 0 < c) (hs : 0 < s)
    (hnz : effective_segments d c s ≠ 0) :
    1 ≤ effective_segments d c s ∧ (effective_segments d c s : ℚ) * s ≤ d := by
  unfold effective_segments at hnz ⊢
  split_ifs at hnz ⊢ with h
  · have h0 : (0 : ℤ) ≤ ⌊d / s⌋ := Int.floor_nonneg.mpr (le_of_lt (div_pos hd hs))
    refine ⟨by omega, ?_⟩
    have h2 : ((⌊d / s⌋ : ℤ) : ℚ) ≤ d / s := Int.floor_le _
    have h3 : ((⌊d / s⌋ : ℤ) : ℚ) * s ≤ d / s * s :=
      mul_le_mul_of_nonneg_right h2 (le_of_lt hs)
    rwa [div_mul_cancel₀ d (ne_of_gt hs)] at h3
  · exact ⟨hc, le_of_not_lt h⟩

/-- The placement interval is never smaller than the requested segment
duration: `effectiveCount * segment_duration ≤ total_duration` forces
`segment_duration ≤ total_duration / effectiveCount ≤ segment_interval`. -/
theorem segment_duration_le_interval (d s : ℚ) (m : ℤ)
    (hm : 1 ≤ m) (hms : (m : ℚ) * s ≤ d) :
    s ≤ segment_interval d m := by
  have hmQ : (0 : ℚ) < (m : ℚ) := by exact_mod_cast (by omega : (0 : ℤ) < m)
  have hsd : s ≤ d / (m : ℚ) := by
    rw [le_div_iff₀ hmQ, mul_comm]
    exact hms
  exact le_trans hsd (le_max_right 1 _)

/-- The range produced at index `i` of the extraction loop. -/
theorem plan_clips_get (d s : ℚ) (m : ℤ) (i : ℕ)
    (h : i < (plan_clips d s m).length) :
    (plan_clips d s m).get ⟨i, h⟩ =
      { start_time := (i : ℚ) * segment_interval d m,
        end_time := min ((i : ℚ) * segment_interval d m + s) d } := by
  unfold plan_clips
  simp only [List.get_eq_getElem]
  rw [List.getElem_map, List.getElem_range]

/-- C1, counterexample (negation of the claim as stated): with
`durationSeconds = 1`, `requestedCount = 10`, `segmentDuration = 1/10 > 0`
the planner returns a plan (no reduction, since `10 * (1/10) = 1` is not
greater than the duration), but the interval floor `max(1, 1/10) = 1` pushes
the starts `1, 2, ..., 9` past the source duration, so the second range is
`[1, 1]` and violates `start < end`. -/
theorem plan_range_bounds_cex :
    ¬ (∀ (d s : ℚ) (c : ℤ) (r : PlanResult), 0 < d → 0 < c → 0 < s →
        extract_video_segments d c s = Except.ok r →
        ∀ t ∈ r.clips,
          0 ≤ t.start_time ∧ t.start_time < t.end_time ∧ t.end_time ≤ d) := by
  intro hclaim
  have he : effective_segments 1 10 (1 / 10) = 10 := by
    unfold effective_segments
    rw [if_neg (by push_cast; norm_num)]
  have hok : extract_video_segments 1 10 (1 / 10) =
      Except.ok { clips := plan_clips 1 (1 / 10) 10,
                  planReduced := decide ((1 : ℚ) < ((10 : ℤ) : ℚ) * (1 / 10)),
                  effectiveCount := 10 } := by
    unfold extract_video_segments
    rw [he, if_neg (by norm_num), if_neg (by norm_num)]
  have hI : segment_interval 1 10 = 1 := by
    unfold segment_interval
    exact max_eq_left (by push_cast; norm_num)
  have hbad := hclaim 1 (1 / 10) 10 _ (by norm_num) (by norm_num) (by norm_num) hok _
    (List.mem_map.mpr ⟨1, List.mem_range.mpr (by decide), rfl⟩)
  obtain ⟨-, hlt, -⟩ := hbad
  dsimp only at hlt
  rw [hI] at hlt
  have h1 : min (((1 : ℕ) : ℚ) * 1 + 1 / 10) 1 = 1 :=
    min_eq_right (by push_cast; norm_num)
  rw [h1] at hlt
  push_cast at hlt
  norm_num at hlt

/-- C1, amended: if additionally `segmentDuration ≥ 1` (in particular for the
integer segment durations of the source's signature), every range of a
returned plan satisfies `0 ≤ start < end ≤ durationSeconds`; each end is
clamped to the source duration. -/
theorem plan_range_bounds (d s : ℚ) (c : ℤ) (r : PlanResult)
    (hd : 0 < d) (hc : 0 < c) (hs : 1 ≤ s)
    (hr : extract_video_segments d c s = Except.ok r) :
    ∀ t ∈ r.clips, 0 ≤ t.start_time ∧ t.start_time < t.end_time ∧ t.end_time ≤ d := by
  obtain ⟨-, hnz, rfl⟩ := extract_ok_inv hr
  dsimp only
  set m := effective_segments d c s with hmdef
  have hs0 : (0 : ℚ) < s := lt_of_lt_of_le one_pos hs
  obtain ⟨hm1, hms⟩ := effective_segments_bound d s c hd hc hs0 hnz
  have hmQ : (0 : ℚ) < (m : ℚ) := by exact_mod_cast (by omega : (0 : ℤ) < m)
  have hsd : s ≤ d / (m : ℚ) := by
    rw [le_div_iff₀ hmQ, mul_comm]
    exact hms
  have hI : segment_interval d m = d / (m : ℚ) :=
    max_eq_right (le_trans hs hsd)
  intro t ht
  unfold plan_clips at ht
  simp only [List.mem_map, List.mem_range] at ht
  obtain ⟨i, hi, rfl⟩ := ht
  have hiQ : (i : ℚ) < (m : ℚ) := by
    have : (i : ℤ) < m := by omega
    exact_mod_cast this
  have hstart_lt_d : (i : ℚ) * segment_interval d m < d := by
    rw [hI]
    calc (i : ℚ) * (d / (m : ℚ)) < (m : ℚ) * (d / (m : ℚ)) :=
          mul_lt_mul_of_pos_right hiQ (div_pos hd hmQ)
      _ = d := by field_simp
  refine ⟨?_, ?_, ?_⟩ <;> dsimp only
  · exact mul_nonneg (Nat.cast_nonneg i)
      (le_trans zero_le_one (le_max_left 1 _))
  · exact lt_min (by linarith) hstart_lt_d
  · exact min_le_right _ _

/-- The plan for the spec scenario `duration=100, count=5, segmentDuration=3`:
ranges at starts 0, 20, 40, 60, 80, each 3 seconds wide, no reduction. -/
def plan100 : PlanResult :=
  { clips := plan_clips 100 3 5, planReduced := false, effectiveCount := 5 }

/-- Evaluation of the planner on the spec scenario
`duration=100, count=5, segmentDuration=3`. -/
theorem extract100_eq : extract_video_segments 100 5 3 = Except.ok plan100 := by
  have he : effective_segments 100 5 3 = 5 := by
    unfold effective_segments
    rw [if_neg (by push_cast; norm_num)]
  have hdec : decide ((100 : ℚ) < ((5 : ℤ) : ℚ) * 3) = false := by
    rw [decide_eq_false_iff_not]
    push_cast
    norm_num
  unfold extract_video_segments plan100
  rw [he, if_neg (by norm_num), if_neg (by norm_num), hdec]

/-- C1, witness: the amended theorem applied to the concrete plan for
`duration=100, count=5, segmentDuration=3`, at its first range `[0, 3]`. -/
theorem plan_range_bounds_witness :
    0 ≤ ({ start_time := 0, end_time := 3 } : TimeRange).start_time ∧
      ({ start_time := 0, end_time := 3 } : TimeRange).start_time <
        ({ start_time := 0, end_time := 3 } : TimeRange).end_time ∧
      ({ start_time := 0, end_time := 3 } : TimeRange).end_time ≤ 100 := by
  have hI : segment_interval 100 5 = 20 := by
    unfold segment_interval
    rw [show ((5 : ℤ) : ℚ) = 5 by norm_num, show (100 : ℚ) / 5 = 20 by norm_num]
    exact max_eq_right (by norm_num)
  have hmem : ({ start_time := 0, end_time := 3 } : TimeRange) ∈ plan100.clips := by
    show _ ∈ plan_clips 100 3 5
    unfold plan_clips
    refine List.mem_map.mpr ⟨0, List.mem_range.mpr (by decide), ?_⟩
    rw [hI]
    have h0 : ((0 : ℕ) : ℚ) * 20 = 0 := by push_cast; ring
    rw [h0]
    norm_num
  exact plan_range_bounds 100 3 5 plan100 (by norm_num) (by norm_num) (by norm_num)
    extract100_eq _ hmem

/-- C2: the reduction behavior of the planner for positive inputs.  When
`durationSeconds ≥ requestedCount * segmentDuration`, the plan is returned
with exactly `requestedCount` ranges and the reduction warning is not
printed; when `durationSeconds < requestedCount * segmentDuration` and
`⌊durationSeconds / segmentDuration⌋` is non-zero, the plan is returned with
that effective count and the warning printed — but when that floor is `0`,
the code raises `ZeroDivisionError` (dividing by the reduced count at line
67) instead of returning the empty plan the claim describes. -/
theorem plan_reduction_behavior (d s : ℚ) (c : ℤ)
    (hd : 0 < d) (hc : 0 < c) (_hs : 0 < s) :
    ((c : ℚ) * s ≤ d →
      extract_video_segments d c s =
          Except.ok { clips := plan_clips d s c, planReduced := false,
                      effectiveCount := c } ∧
        (plan_clips d s c).length = c.toNat) ∧
      (d < (c : ℚ) * s → ⌊d / s⌋ ≠ 0 →
        extract_video_segments d c s =
            Except.ok { clips := plan_clips d s ⌊d / s⌋, planReduced := true,
                        effectiveCount := ⌊d / s⌋ } ∧
          (plan_clips d s ⌊d / s⌋).length = ⌊d / s⌋.toNat) ∧
      (d < (c : ℚ) * s → ⌊d / s⌋ = 0 →
        extract_video_segments d c s = Except.error PlanError.zeroDivision) := by
  refine ⟨?_, ?_, ?_⟩
  · intro h
    have he : effective_segments d c s = c := by
      unfold effective_segments
      rw [if_neg (not_lt.mpr h)]
    constructor
    · unfold extract_video_segments
      rw [he, if_neg (ne_of_gt hd), if_neg (by omega), decide_eq_false (not_lt.mpr h)]
    · unfold plan_clips
      simp
  · intro h hnz
    have he : effective_segments d c s = ⌊d / s⌋ := by
      unfold effective_segments
      rw [if_pos h]
    constructor
    · unfold extract_video_segments
      rw [he, if_neg (ne_of_gt hd), if_neg hnz, decide_eq_true h]
    · unfold plan_clips
      simp
  · intro h hz
    have he : effective_segments d c s = 0 := by
      unfold effective_segments
      rw [if_pos h, hz]
    unfold extract_video_segments
    rw [he, if_neg (ne_of_gt hd), if_pos rfl]

/-- C2, witness: at the failing input `duration=2, requestedCount=10,
segmentDuration=3` the effective count floors to `int(2 // 3) = 0` and the
planner raises `ZeroDivisionError` instead of returning an empty plan. -/
theorem plan_zero_effective_zero_division :
    extract_video_segments 2 10 3 = Except.error PlanError.zeroDivision := by
  have h := plan_reduction_behavior 2 3 10 (by norm_num) (by norm_num) (by norm_num)
  exact h.2.2 (by push_cast; norm_num) (by norm_num)

/-- C3: for a successful plan with positive inputs and effective count at
least 1: there are exactly `effectiveCount` ranges, the i-th start equals
`i * max(1, durationSeconds / effectiveCount)` (a formula not involving
`segmentDuration`), the ranges are strictly ordered by start, and whenever
the interval is smaller than `segmentDuration`, consecutive ranges overlap.
(The last conjunct is in fact vacuous: `effectiveCount * segmentDuration ≤
durationSeconds` holds in both planning branches, so the interval is never
smaller than `segmentDuration`; see `segment_duration_le_interval`.) -/
theorem plan_starts_uniform_ordered (d s : ℚ) (c : ℤ) (r : PlanResult)
    (hd : 0 < d) (hc : 0 < c) (hs : 0 < s)
    (hr : extract_video_segments d c s = Except.ok r)
    (hcnt : 1 ≤ r.effectiveCount) :
    r.clips.length = r.effectiveCount.toNat ∧
      (∀ i, ∀ h : i < r.clips.length,
        (r.clips.get ⟨i, h⟩).start_time =
          (i : ℚ) * max 1 (d / (r.effectiveCount : ℚ))) ∧
      r.clips.Pairwise (fun a b => a.start_time < b.start_time) ∧
      (max 1 (d / (r.effectiveCount : ℚ)) < s →
        ∀ i, ∀ h : i + 1 < r.clips.length,
          (r.clips.get ⟨i + 1, h⟩).start_time <
            (r.clips.get ⟨i, Nat.lt_of_succ_lt h⟩).end_time) := by
  obtain ⟨-, hnz, rfl⟩ := extract_ok_inv hr
  dsimp only at hcnt ⊢
  set m := effective_segments d c s with hmdef
  obtain ⟨hm1, hms⟩ := effective_segments_bound d s c hd hc hs hnz
  have hIpos : (0 : ℚ) < segment_interval d m :=
    lt_of_lt_of_le one_pos (le_max_left 1 _)
  have hsI : s ≤ segment_interval d m := segment_duration_le_interval d s m hm1 hms
  refine ⟨?_, ?_, ?_, ?_⟩
  · unfold plan_clips
    simp
  · intro i h
    rw [plan_clips_get]
    rfl
  · unfold plan_clips
    rw [List.pairwise_map]
    refine List.Pairwise.imp ?_ (List.pairwise_lt_range _)
    intro a b hab
    exact mul_lt_mul_of_pos_right (by exact_mod_cast hab) hIpos
  · intro hlt
    exact absurd hsI (not_le.mpr hlt)

/-- C3, witness: the theorem applied to the concrete plan for
`duration=100, count=5, segmentDuration=3`. -/
theorem plan_starts_uniform_ordered_witness :
    plan100.clips.length = plan100.effectiveCount.toNat ∧
      plan100.clips.Pairwise (fun a b => a.start_time < b.start_time) := by
  have h := plan_starts_uniform_ordered 100 3 5 plan100 (by norm_num) (by norm_num)
    (by norm_num) extract100_eq (by norm_num [plan100])
  exact ⟨h.1, h.2.2.1⟩

/-- C4, counterexample: `requestedCount = 0` violates the planner
preconditions, but the code fails with `ZeroDivisionError`
(at `max(1, total_duration / num_segments)`), not with the `InvalidInput`
`ValueError`. -/
theorem plan_invalid_input_cex :
    extract_video_segments 10 0 3 = Except.error PlanError.zeroDivision ∧
      PlanError.zeroDivision ≠ PlanError.invalidInput := by
  constructor
  · have he : effective_segments 10 0 3 = 0 := by
      unfold effective_segments
      rw [if_neg (by push_cast; norm_num)]
    unfold extract_video_segments
    rw [he, if_neg (by norm_num), if_pos rfl]
  · decide

/-- C4, amended: for every `durationSeconds = 0` input the planner fails with
`InvalidInput` (whatever the other two parameters are); `requestedCount = 0`
with a positive duration fails with `ZeroDivisionError` for every
`segmentDuration`; a negative `requestedCount` (positive duration, any
`segmentDuration`) and a non-positive `segmentDuration` — zero included —
(positive duration and count) return a plan without failing. -/
theorem plan_invalid_input_behavior :
    (∀ (c : ℤ) (s : ℚ),
        extract_video_segments 0 c s = Except.error PlanError.invalidInput) ∧
      (∀ (d s : ℚ), 0 < d →
        extract_video_segments d 0 s = Except.error PlanError.zeroDivision) ∧
      (∀ (d s : ℚ) (c : ℤ), 0 < d → c < 0 →
        (extract_video_segments d c s).isOk = true) ∧
      (∀ (d s : ℚ) (c : ℤ), 0 < d → 0 < c → s ≤ 0 →
        (extract_video_segments d c s).isOk = true) := by
  refine ⟨?_, ?_, ?_, ?_⟩
  · intro c s
    unfold extract_video_segments
    rw [if_pos rfl]
  · intro d s hd
    have he : effective_segments d 0 s = 0 := by
      unfold effective_segments
      rw [if_neg]
      have h0 : ((0 : ℤ) : ℚ) * s = 0 := by push_cast; ring
      rw [h0]
      exact not_lt.mpr (le_of_lt hd)
    unfold extract_video_segments
    rw [if_neg (ne_of_gt hd), if_pos he]
  · intro d s c hd hc
    have hcQ : (c : ℚ) < 0 := by exact_mod_cast hc
    by_cases hred : d < (c : ℚ) * s
    · -- reduction branch: s is forced negative, so the floor is negative
      have hs_neg : s < 0 := by
        by_contra hs0
        push_neg at hs0
        have : (c : ℚ) * s ≤ 0 := mul_nonpos_iff.mpr (Or.inr ⟨le_of_lt hcQ, hs0⟩)
        linarith
      have hq_neg : d / s < 0 := div_neg_of_pos_of_neg hd hs_neg
      have hfl : ⌊d / s⌋ ≠ 0 := by
        intro h0
        have : (0 : ℚ) ≤ d / s := Int.floor_nonneg.mp (le_of_eq h0.symm)
        linarith
      have he : effective_segments d c s = ⌊d / s⌋ := by
        unfold effective_segments
        rw [if_pos hred]
      unfold extract_video_segments
      rw [if_neg (ne_of_gt hd), he, if_neg hfl]
      rfl
    · have he : effective_segments d c s = c := by
        unfold effective_segments
        rw [if_neg hred]
      unfold extract_video_segments
      rw [if_neg (ne_of_gt hd), he, if_neg (by omega)]
      rfl
  · intro d s c hd hc hs
    have hcQ : (0 : ℚ) ≤ (c : ℚ) := by exact_mod_cast le_of_lt hc
    have hred : ¬ d < (c : ℚ) * s := by
      have : (c : ℚ) * s ≤ 0 := mul_nonpos_iff.mpr (Or.inl ⟨hcQ, hs⟩)
      linarith
    have he : effective_segments d c s = c := by
      unfold effective_segments
      rw [if_neg hred]
    unfold extract_video_segments
    rw [if_neg (ne_of_gt hd), he, if_neg (by omega)]
    rfl

/-- C4, witness: the amended behavior at concrete inputs, including
`segmentDuration = 0` for the returns-a-plan case:
`(0, -2, 3)` gives `InvalidInput`, `(10, 0, 3)` gives `ZeroDivisionError`,
`(10, -2, 3)` and `(10, 2, 0)` return plans. -/
theorem plan_invalid_input_behavior_witness :
    extract_video_segments 0 (-2) 3 = Except.error PlanError.invalidInput ∧
      extract_video_segments 10 0 3 = Except.error PlanError.zeroDivision ∧
      (extract_video_segments 10 (-2) 3).isOk = true ∧
      (extract_video_segments 10 2 0).isOk = true := by
  have h := plan_invalid_input_behavior
  exact ⟨h.1 (-2) 3, h.2.1 10 3 (by norm_num),
    h.2.2.1 10 3 (-2) (by norm_num) (by norm_num),
    h.2.2.2 10 0 2 (by norm_num) (by norm_num) (le_refl 0)⟩

/-- A realized clip handed to `create_summary_video`: an opaque moviepy clip
object, modelled as a numbered handle with a duration. -/
structure Clip where
  id : ℕ
  duration : ℚ
deriving DecidableEq, Repr

/-- An element of `clips_with_duration` (line 107): a fresh copy (handle
`id`) of the original clip (handle `src`), rescaled to `duration`. -/
structure RClip where
  id : ℕ
  src : ℕ
  duration : ℚ
deriving DecidableEq, Repr

/-- The `ValueError` raised at line 101 when no segments are supplied. -/
inductive ComposeError
  | noSegments
deriving DecidableEq, Repr

/-- Messages printed on the two recovered-exception paths of
`create_summary_video`: the audio warning of line 118 and the
catch-all error print of line 131. -/
inductive ComposeWarning
  | audioAttachFailed
  | summaryCreationError
deriving DecidableEq, Repr

/-- The observable outcome of one `create_summary_video` call:
`result` is what the call returns (or the exception it raises),
`fileWritten` records whether `write_videofile` completed,
`concatClips`/`concatMethod` record the arguments passed to
`concatenate_videoclips`, `warnings` the recovered-exception prints,
`finalDuration` the duration of the composed clip,
`audioTrimWindow` the `(0, summary_duration)` argument pair of the
`self.video.audio.subclip(0, summary_duration)` request at line 115
(`none` when the source has no audio track, so the request is not made),
`audioAttached` whether the audio branch completed, and
`closedIds`/`allocatedIds` track the clip handles closed by the function
and the intermediate handles it created. -/
structure ComposeOutcome where
  result : Except ComposeError String
  fileWritten : Bool
  concatClips : List RClip
  concatMethod : String
  warnings : List ComposeWarning
  finalDuration : Option ℚ
  audioTrimWindow : Option (ℚ × ℚ)
  audioAttached : Bool
  closedIds : List ℕ
  allocatedIds : List ℕ
deriving Repr

/-- Largest handle id among the input clips (used to model allocation of
fresh handles for the copies made at lines 107, 110 and 116). -/
def maxId (segs : List Clip) : ℕ :=
  segs.foldr (fun c m => max c.id m) 0

/-- Line 107: `[clip.with_duration(adjusted_duration) for clip in
video_segments]` — one fresh copy per input clip, in order, every copy
rescaled to the same `adjusted_duration`. -/
def rescaled_clips (segs : List Clip) (adjusted : ℚ) (base : ℕ) : List RClip :=
  match segs with
  | [] => []
  | c :: rest =>
    { id := base, src := c.id, duration := adjusted } :: rescaled_clips rest adjusted (base + 1)

/-- `VideoSummarizer.create_summary_video` (lines 88-138).  The moviepy
backend is abstracted by three flags: `hasAudio` (`self.video.audio` is not
None), `audioFails` (the audio trim/attach block at lines 114-116 raises) and
`encodeFails` (`write_videofile` at line 121 raises).  Control flow of the
source: the `NoSegments` `ValueError` is raised before the try block; the
audio block is an inner try whose failure only prints a warning; an encode
failure is swallowed by the outer `except` (line 130), which prints and falls
through to `return self.output_path` (line 138); `final_clip.close()`
(line 128) runs only when the write succeeded, while the `finally` block
(lines 133-136) closes exactly the input segments. -/
def create_summary_video (video_segments : List Clip) (summary_duration : ℚ)
    (output_path : String) (hasAudio audioFails encodeFails : Bool) : ComposeOutcome :=
  if video_segments.length = 0 then
    { result := Except.error ComposeError.noSegments,
      fileWritten := false,
      concatClips := [],
      concatMethod := "",
      warnings := [],
      finalDuration := none,
      audioTrimWindow := none,
      audioAttached := false,
      closedIds := [],
      allocatedIds := [] }
  else
    { result := Except.ok output_path,
      fileWritten := !encodeFails,
      concatClips := rescaled_clips video_segments
        (summary_duration / (video_segments.length : ℚ)) (maxId video_segments + 1),
      concatMethod := "compose",
      warnings :=
        (if hasAudio && audioFails then [ComposeWarning.audioAttachFailed] else []) ++
          (if encodeFails then [ComposeWarning.summaryCreationError] else []),
      finalDuration := some (((rescaled_clips video_segments
        (summary_duration / (video_segments.length : ℚ))
        (maxId video_segments + 1)).map (fun rc => rc.duration)).sum),
      audioTrimWindow := if hasAudio then some (0, summary_duration) else none,
      audioAttached := hasAudio && !audioFails,
      closedIds :=
        if encodeFails then video_segments.map (fun cl => cl.id)
        else
          video_segments.map (fun cl => cl.id) ++
            [if hasAudio && !audioFails then
                maxId video_segments + 1 + video_segments.length + 1
              else maxId video_segments + 1 + video_segments.length],
      allocatedIds :=
        ((rescaled_clips video_segments
          (summary_duration / (video_segments.length : ℚ))
          (maxId video_segments + 1)).map (fun rc => rc.id)) ++
          [maxId video_segments + 1 + video_segments.length] ++
          (if hasAudio && !audioFails then
              [maxId video_segments + 1 + video_segments.length + 1]
            else []) }

/-- All rescale copies carry the same adjusted duration. -/
theorem rescaled_clips_map_duration (segs : List Clip) (a : ℚ) (b : ℕ) :
    (rescaled_clips segs a b).map (fun rc => rc.duration) =
      List.replicate segs.length a := by
  induction segs generalizing b with
  | nil => rfl
  | cons c rest ih => simp [rescaled_clips, List.replicate_succ, ih]

/-- The rescale copies keep the original clips' order. -/
theorem rescaled_clips_map_src (segs : List Clip) (a : ℚ) (b : ℕ) :
    (rescaled_clips segs a b).map (fun rc => rc.src) = segs.map (fun cl => cl.id) := by
  induction segs generalizing b with
  | nil => rfl
  | cons c rest ih => simp [rescaled_clips, ih]

/-- Every handle allocated for a rescale copy is at least the base id. -/
theorem mem_rescaled_ids_ge (segs : List Clip) (a : ℚ) (b : ℕ) :
    ∀ x ∈ (rescaled_clips segs a b).map (fun rc => rc.id), b ≤ x := by
  induction segs generalizing b with
  | nil => intro x hx; simp [rescaled_clips] at hx
  | cons c rest ih =>
    intro x hx
    simp only [rescaled_clips, List.map_cons, List.mem_cons] at hx
    rcases hx with h | h
    · omega
    · have := ih (b + 1) x h
      omega

/-- Every handle allocated for a rescale copy is below `base + length`
(in particular, below the handle of the concatenated clip). -/
theorem mem_rescaled_ids_lt (segs : List Clip) (a : ℚ) (b : ℕ) :
    ∀ x ∈ (rescaled_clips segs a b).map (fun rc => rc.id), x < b + segs.length := by
  induction segs generalizing b with
  | nil => intro x hx; simp [rescaled_clips] at hx
  | cons c rest ih =>
    intro x hx
    simp only [rescaled_clips, List.map_cons, List.mem_cons] at hx
    simp only [List.length_cons]
    rcases hx with h | h
    · omega
    · have := ih (b + 1) x h
      omega

/-- Every input clip's id is bounded by `maxId`. -/
theorem le_maxId {c : Clip} {segs : List Clip} (hc : c ∈ segs) :
    c.id ≤ maxId segs := by
  induction segs with
  | nil => cases hc
  | cons d rest ih =>
    rcases List.mem_cons.mp hc with h | h
    · subst h
      exact le_max_left _ _
    · exact le_trans (ih h) (le_max_right _ _)

/-- C5: with a non-empty clip list and a positive target duration, every clip
passed to concatenation is rescaled to exactly `summary_duration / N`
(never a per-clip-varying duration), the concatenation receives the rescaled
clips in their original order, and uses the compositing concatenation mode. -/
theorem compose_uniform_rescale (segs : List Clip) (D : ℚ) (out : String)
    (ha af ef : Bool) (hne : segs ≠ []) (_hD : 0 < D) :
    (create_summary_video segs D out ha af ef).concatClips.map (fun rc => rc.duration) =
        List.replicate segs.length (D / (segs.length : ℚ)) ∧
      (create_summary_video segs D out ha af ef).concatClips.map (fun rc => rc.src) =
        segs.map (fun cl => cl.id) ∧
      (create_summary_video segs D out ha af ef).concatMethod = "compose" := by
  have hlen : segs.length ≠ 0 := fun h => hne (List.length_eq_zero.mp h)
  unfold create_summary_video
  rw [if_neg hlen]
  exact ⟨rescaled_clips_map_duration segs _ _, rescaled_clips_map_src segs _ _, rfl⟩

/-- A concrete input clip (handle 0, 5 seconds) for the witnesses. -/
def clip0 : Clip := { id := 0, duration := 5 }

/-- The output path used by the concrete composer runs. -/
def out_mp4 : String := "summary.mp4"

/-- C5, witness: one 5-second clip, target 30 seconds, all backend steps
succeed. -/
theorem compose_uniform_rescale_witness :
    (create_summary_video [clip0] 30 out_mp4 false false false).concatClips.map
        (fun rc => rc.duration) =
      List.replicate ([clip0] : List Clip).length
        (30 / ((([clip0] : List Clip).length : ℕ) : ℚ)) ∧
      (create_summary_video [clip0] 30 out_mp4 false false false).concatClips.map
        (fun rc => rc.src) = ([clip0] : List Clip).map (fun cl => cl.id) ∧
      (create_summary_video [clip0] 30 out_mp4 false false false).concatMethod =
        "compose" :=
  compose_uniform_rescale [clip0] 30 out_mp4 false false false (by simp) (by norm_num)

/-- C6: called with no realized clips, the composer raises the `NoSegments`
`ValueError` before any backend work: no file is written and no intermediate
handle is created. -/
theorem compose_empty_no_segments (D : ℚ) (out : String) (ha af ef : Bool) :
    (create_summary_video [] D out ha af ef).result =
        Except.error ComposeError.noSegments ∧
      (create_summary_video [] D out ha af ef).fileWritten = false ∧
      (create_summary_video [] D out ha af ef).allocatedIds = [] :=
  ⟨rfl, rfl, rfl⟩

/-- C7: when the final encode fails, the exception is swallowed by the
outer `except`, no file is written, and the function still returns the
output path as if it had succeeded (instead of surfacing an encode error). -/
theorem compose_encode_failure_returns_path :
    (create_summary_video [clip0] 30 out_mp4 false false true).result =
        Except.ok out_mp4 ∧
      (create_summary_video [clip0] 30 out_mp4 false false true).fileWritten = false :=
  ⟨rfl, rfl⟩

/-- C8: when the source has audio, the composer requests a trim of the
source audio to the window `[0, totalSummaryDuration]` (the
`subclip(0, summary_duration)` call, whatever the audio flags) and, when the
audio step succeeds, attaches it.  When the trim/attach block fails instead,
composition continues without audio, the audio warning is recorded (and is
the only warning when the encode succeeds), the call still returns the output
path, and the final duration is exactly what it would have been had the audio
step succeeded. -/
theorem compose_audio_failure_recovered (segs : List Clip) (D : ℚ) (out : String)
    (af ef : Bool) (hne : segs ≠ []) :
    (create_summary_video segs D out true af ef).audioTrimWindow = some (0, D) ∧
      (create_summary_video segs D out true false ef).audioAttached = true ∧
      (create_summary_video segs D out true true ef).result = Except.ok out ∧
      (create_summary_video segs D out true true ef).audioAttached = false ∧
      ComposeWarning.audioAttachFailed ∈
        (create_summary_video segs D out true true ef).warnings ∧
      (ef = false → (create_summary_video segs D out true true ef).warnings =
        [ComposeWarning.audioAttachFailed]) ∧
      (create_summary_video segs D out true true ef).finalDuration =
        (create_summary_video segs D out true false ef).finalDuration := by
  refine ⟨?_, ?_, ?_, ?_, ?_, ?_, ?_⟩
  · simp [create_summary_video, hne]
  · simp [create_summary_video, hne]
  · simp [create_summary_video, hne]
  · simp [create_summary_video, hne]
  · simp [create_summary_video, hne]
  · intro hef
    subst hef
    simp [create_summary_video, hne]
  · simp [create_summary_video, hne]

/-- C8, witness: one clip with audio present — the trim window `[0, 30]`
is requested both on the failing and on the succeeding audio path, audio is
attached on the success path, and the failure path recovers with a warning
(encode succeeding). -/
theorem compose_audio_failure_recovered_witness :
    (create_summary_video [clip0] 30 out_mp4 true true false).audioTrimWindow =
        some (0, 30) ∧
      (create_summary_video [clip0] 30 out_mp4 true false false).audioAttached =
        true ∧
      (create_summary_video [clip0] 30 out_mp4 true true false).result =
        Except.ok out_mp4 ∧
      (create_summary_video [clip0] 30 out_mp4 true true false).audioAttached =
        false ∧
      ComposeWarning.audioAttachFailed ∈
        (create_summary_video [clip0] 30 out_mp4 true true false).warnings ∧
      ((false : Bool) = false →
        (create_summary_video [clip0] 30 out_mp4 true true false).warnings =
          [ComposeWarning.audioAttachFailed]) ∧
      (create_summary_video [clip0] 30 out_mp4 true true false).finalDuration =
        (create_summary_video [clip0] 30 out_mp4 true false false).finalDuration :=
  compose_audio_failure_recovered [clip0] 30 out_mp4 true false (by simp)

/-- C9, counterexample: on an encode failure with one input clip, the
rescaled copy (handle 1) and the concatenated clip (handle 2) are allocated
but never closed — only the input clip (handle 0) is closed by the `finally`
block, so not every intermediate handle is released. -/
theorem compose_handle_leak_cex :
    ((create_summary_video [clip0] 30 out_mp4 false false true).allocatedIds.all
      (fun a =>
        (create_summary_video [clip0] 30 out_mp4 false false true).closedIds.contains a))
      = false := rfl

/-- C9, amended: on every exit path every input clip handle is closed (the
`finally` block); the rescale copies made by `with_duration` are closed on no
exit path (encode success included); and on an encode failure none of the
intermediate handles (rescale copies, concatenated clip, audio-attached
clip) is closed. -/
theorem compose_release_discipline (segs : List Clip) (D : ℚ) (out : String)
    (ha af ef : Bool) :
    (∀ c ∈ segs, c.id ∈ (create_summary_video segs D out ha af ef).closedIds) ∧
      (∀ a ∈ (create_summary_video segs D out ha af ef).concatClips.map
          (fun rc => rc.id),
        a ∉ (create_summary_video segs D out ha af ef).closedIds) ∧
      (ef = true → ∀ a ∈ (create_summary_video segs D out ha af ef).allocatedIds,
        a ∉ (create_summary_video segs D out ha af ef).closedIds) := by
  by_cases hlen : segs.length = 0
  · have hnil : segs = [] := List.length_eq_zero.mp hlen
    subst hnil
    simp [create_summary_video]
  · simp only [create_summary_video, if_neg hlen]
    refine ⟨?_, ?_, ?_⟩
    · intro c hc
      have hmem : c.id ∈ segs.map (fun cl => cl.id) := List.mem_map_of_mem _ hc
      cases ef
      · simp [hmem]
      · simp [hmem]
    · intro a hmem hclosed
      have hge : maxId segs + 1 ≤ a := mem_rescaled_ids_ge segs _ _ a hmem
      have hlt : a < maxId segs + 1 + segs.length := mem_rescaled_ids_lt segs _ _ a hmem
      cases ef
      · rw [if_neg Bool.false_ne_true] at hclosed
        rcases List.mem_append.mp hclosed with h | h
        · obtain ⟨cc, hcc, rfl⟩ := List.mem_map.mp h
          have := le_maxId hcc
          omega
        · simp only [List.mem_singleton] at h
          by_cases hba : (ha && !af) = true
          · rw [if_pos hba] at h
            omega
          · rw [if_neg hba] at h
            omega
      · rw [if_pos rfl] at hclosed
        obtain ⟨cc, hcc, rfl⟩ := List.mem_map.mp hclosed
        have := le_maxId hcc
        omega
    · intro hef a hmem hclosed
      subst hef
      rw [if_pos rfl] at hclosed
      have hge : maxId segs + 1 ≤ a := by
        rcases List.mem_append.mp hmem with h | h
        · rcases List.mem_append.mp h with h1 | h1
          · exact mem_rescaled_ids_ge segs _ _ a h1
          · simp at h1
            omega
        · by_cases hba : (ha && !af) = true
          · simp [hba] at h
            omega
          · simp [hba] at h
      obtain ⟨c, hc, rfl⟩ := List.mem_map.mp hclosed
      have := le_maxId hc
      omega

/-- C9, witness: one input clip — the input handle 0 is closed on both the
failing-encode and the successful run, while the rescale copy handle 1 is
closed on neither. -/
theorem compose_release_discipline_witness :
    clip0.id ∈ (create_summary_video [clip0] 30 out_mp4 false false true).closedIds ∧
      (1 : ℕ) ∉ (create_summary_video [clip0] 30 out_mp4 false false false).closedIds ∧
      (1 : ℕ) ∉ (create_summary_video [clip0] 30 out_mp4 false false true).closedIds := by
  have h1 := compose_release_discipline [clip0] 30 out_mp4 false false true
  have h2 := compose_release_discipline [clip0] 30 out_mp4 false false false
  exact ⟨h1.1 clip0 (by simp), h2.2.1 1 (by decide), h1.2.2 rfl 1 (by decide)⟩

/-- Index of the last occurrence of `target` in the list, `-1` when absent —
the semantics of Python's `str.rfind` as used by `os.path.splitext`. -/
def rfind (l : List Char) (target : Char) : ℤ :=
  l.enum.foldl (fun acc p => if p.2 = target then (p.1 : ℤ) else acc) (-1)

/-- The semantics of CPython `posixpath.splitext` (the `os.path.splitext`
call at src/main.py line 43): split at the last dot after the last path
separator, unless the basename up to that dot consists only of dots (leading
dots do not start an extension). -/
def splitext (p : List Char) : List Char × List Char :=
  if rfind p '/' < rfind p '.' then
    if ((p.drop ((rfind p '/' + 1).toNat)).take
          ((rfind p '.' - rfind p '/' - 1).toNat)).any (fun ch => ch != '.') then
      (p.take (rfind p '.').toNat, p.drop (rfind p '.').toNat)
    else (p, [])
  else (p, [])

/-- The characters inserted by `_generate_output_path`
(`f-string` at line 44). -/
def summary_suffix : List Char := "_summary".toList

/-- `VideoSummarizer._generate_output_path` (lines 36-44):
`base, ext = os.path.splitext(self.input_path); f"{base}_summary{ext}"`. -/
def generate_output_path (input_path : List Char) : List Char :=
  (splitext input_path).1 ++ summary_suffix ++ (splitext input_path).2

/-- Line 16: `self.output_path = output_path or self._generate_output_path()`.
Python's `or` takes the default both for `None` and for the falsy empty
string. -/
def init_output_path (input_path : List Char)
    (output_path : Option (List Char)) : List Char :=
  match output_path with
  | none => generate_output_path input_path
  | some s => if s = [] then generate_output_path input_path else s

/-- C10: an omitted (`None`) and an empty-string output path both yield the
default path, the default is formed by inserting `_summary` between the
input path's stem and extension (stem and extension reassemble to the input
path), and any non-empty output path is used literally. -/
theorem default_output_path_spec (input : List Char) :
    init_output_path input none = generate_output_path input ∧
      init_output_path input (some []) = generate_output_path input ∧
      generate_output_path input =
        (splitext input).1 ++ summary_suffix ++ (splitext input).2 ∧
      (splitext input).1 ++ (splitext input).2 = input ∧
      (∀ s : List Char, s ≠ [] → init_output_path input (some s) = s) := by
  refine ⟨rfl, ?_, rfl, ?_, ?_⟩
  · simp [init_output_path]
  · unfold splitext
    split_ifs with h1 h2
    · exact List.take_append_drop _ _
    · exact List.append_nil _
    · exact List.append_nil _
  · intro s hs
    simp [init_output_path, hs]

/-- The concrete input path of the claim's example. -/
def sample_input : List Char := "a/b.mp4".toList

/-- The default output path of the claim's example. -/
def sample_default : List Char := "a/b_summary.mp4".toList

/-- A non-empty explicit output path. -/
def sample_custom : List Char := "c.mp4".toList

/-- C10, witness: the spec example path `a/b.mp4` defaults (for both `None`
and the empty string) to `a/b_summary.mp4`, while a non-empty explicit path
is kept. -/
theorem default_output_path_spec_witness :
    init_output_path sample_input none = sample_default ∧
      init_output_path sample_input (some []) = sample_default ∧
      init_output_path sample_input (some sample_custom) = sample_custom := by
  have h := default_output_path_spec sample_input
  exact ⟨h.1.trans (by decide), h.2.1.trans (by decide),
    h.2.2.2.2 sample_custom (by decide)⟩

end VideoSummary
